import Mathlib

/-!
Verification of the offline-first data cache and synchronization engine
of the lats-go-eme repository.

The authoritative source for the queue and cache operations is the
data-cache store (`useDataCacheStore.ts`, v2.0): the `OfflineAction`
record, `addToOfflineQueue`, `removeFromOfflineQueue`,
`updateQueueAction`, `clearOfflineQueue`, the twelve collection setters
and the persisted projection (`partialize`).  The snapshot manager, the
conflict tracker and the sync engine (`syncService.ts`, v3.0) are not
among the source files; they are modelled from the specification and
the repository's improvement report, and each such definition says so
in its doc comment.

Conventions of the embedding: JavaScript arrays become `List`, the
untyped (`any`) domain records become the opaque `DomainRecord`,
`Date.now()` and `Math.random().toString(36).substr(2, 9)` become
explicit `now : Nat` and `rand : String` inputs, and a TypeScript
`Partial` record of updates becomes a record of `Option` fields.
-/

namespace DataCache

/-- `SyncStatus` from the store: idle | syncing | success | error. -/
inductive SyncStatus
  | idle
  | syncing
  | success
  | error
deriving DecidableEq, Repr

/-- `OfflineActionType` from the store. -/
inductive OfflineActionType
  | cart_add
  | cart_update
  | cart_clear
  | order_create
  | favorite_toggle
deriving DecidableEq, Repr

/-- The HTTP-style methods an `OfflineAction` may carry. -/
inductive HttpMethod
  | get
  | post
  | put
  | patch
  | delete
deriving DecidableEq, Repr

/-- Action status: pending | processing | failed. -/
inductive ActionStatus
  | pending
  | processing
  | failed
deriving DecidableEq, Repr

/-- Domain records are untyped (`any`) in the source; they are opaque
payloads here. -/
abbrev DomainRecord := String

/-- `OfflineAction` as declared in the store. -/
structure OfflineAction where
  id : String
  type : OfflineActionType
  endpoint : String
  method : HttpMethod
  payload : Option String
  timestamp : Nat
  retryCount : Nat
  maxRetries : Nat
  status : ActionStatus
  errorMessage : Option String
deriving DecidableEq, Repr

/-- The argument of `addToOfflineQueue`:
`Omit<OfflineAction, 'id' | 'timestamp' | 'retryCount' | 'status'>`. -/
structure NewActionInput where
  type : OfflineActionType
  endpoint : String
  method : HttpMethod
  payload : Option String
  maxRetries : Nat
  errorMessage : Option String
deriving DecidableEq, Repr

/-- A TypeScript `Partial<OfflineAction>`: each field present or absent. -/
structure ActionUpdates where
  id : Option String := none
  type : Option OfflineActionType := none
  endpoint : Option String := none
  method : Option HttpMethod := none
  payload : Option (Option String) := none
  timestamp : Option Nat := none
  retryCount : Option Nat := none
  maxRetries : Option Nat := none
  status : Option ActionStatus := none
  errorMessage : Option (Option String) := none
deriving DecidableEq, Repr

/-- The JavaScript spread `{ ...a, ...updates }`: fields present in
`updates` override those of `a`. -/
def applyUpdates (a : OfflineAction) (u : ActionUpdates) : OfflineAction where
  id := u.id.getD a.id
  type := u.type.getD a.type
  endpoint := u.endpoint.getD a.endpoint
  method := u.method.getD a.method
  payload := u.payload.getD a.payload
  timestamp := u.timestamp.getD a.timestamp
  retryCount := u.retryCount.getD a.retryCount
  maxRetries := u.maxRetries.getD a.maxRetries
  status := u.status.getD a.status
  errorMessage := u.errorMessage.getD a.errorMessage

/-- The `DataCacheState` mirrored from the store (function-valued members
of the TypeScript interface become the top-level operations below). -/
structure DataCacheState where
  syncStatus : SyncStatus
  lastSyncTime : Option Nat
  isOnline : Bool
  syncError : Option String
  offlineActionsQueue : List OfflineAction
  isProcessingQueue : Bool
  carBrands : List DomainRecord
  carModels : List DomainRecord
  productBrands : List DomainRecord
  categories : List DomainRecord
  products : List DomainRecord
  suppliers : List DomainRecord
  distributors : List DomainRecord
  partners : List DomainRecord
  admins : List DomainRecord
  subscribers : List DomainRecord
  customers : List DomainRecord
  orders : List DomainRecord
deriving DecidableEq, Repr

/-- The store's initial state (the literal passed to `create`). -/
def initialState : DataCacheState where
  syncStatus := .idle
  lastSyncTime := none
  isOnline := true
  syncError := none
  offlineActionsQueue := []
  isProcessingQueue := false
  carBrands := []
  carModels := []
  productBrands := []
  categories := []
  products := []
  suppliers := []
  distributors := []
  partners := []
  admins := []
  subscribers := []
  customers := []
  orders := []

/-- `generateActionId`: \x60action_${Date.now()}_${Math.random().toString(36).substr(2, 9)}\x60,
with the clock reading and the random suffix as explicit inputs. -/
def generateActionId (now : Nat) (rand : String) : String :=
  "action_" ++ toString now ++ "_" ++ rand

/-- The `OfflineAction` that `addToOfflineQueue` builds from its input. -/
def mkQueuedAction (now : Nat) (rand : String) (action : NewActionInput) :
    OfflineAction where
  id := generateActionId now rand
  type := action.type
  endpoint := action.endpoint
  method := action.method
  payload := action.payload
  timestamp := now
  retryCount := 0
  maxRetries := action.maxRetries
  status := .pending
  errorMessage := action.errorMessage

/-- `addToOfflineQueue`: spreads the old queue and appends the new action. -/
def addToOfflineQueue (now : Nat) (rand : String) (action : NewActionInput)
    (s : DataCacheState) : DataCacheState :=
  { s with offlineActionsQueue :=
      s.offlineActionsQueue ++ [mkQueuedAction now rand action] }

/-- `removeFromOfflineQueue`: keeps the actions whose id differs. -/
def removeFromOfflineQueue (actionId : String) (s : DataCacheState) :
    DataCacheState :=
  { s with offlineActionsQueue :=
      s.offlineActionsQueue.filter (fun a => a.id ≠ actionId) }

/-- `updateQueueAction`: maps the queue, spreading the updates over the
action whose id matches. -/
def updateQueueAction (actionId : String) (updates : ActionUpdates)
    (s : DataCacheState) : DataCacheState :=
  { s with offlineActionsQueue :=
      s.offlineActionsQueue.map (fun a =>
        if a.id = actionId then applyUpdates a updates else a) }

/-- `clearOfflineQueue`: resets the queue to the empty array. -/
def clearOfflineQueue (s : DataCacheState) : DataCacheState :=
  { s with offlineActionsQueue := [] }

/-- `setProcessingQueue`. -/
def setProcessingQueue (isProcessing : Bool) (s : DataCacheState) :
    DataCacheState :=
  { s with isProcessingQueue := isProcessing }

/-- `getQueueLength`. -/
def getQueueLength (s : DataCacheState) : Nat :=
  s.offlineActionsQueue.length

/-- `setOnline`. -/
def setOnline (isOnline : Bool) (s : DataCacheState) : DataCacheState :=
  { s with isOnline := isOnline }

/-- `setSyncStatus`. -/
def setSyncStatus (status : SyncStatus) (s : DataCacheState) : DataCacheState :=
  { s with syncStatus := status }

/-- `setSyncError`. -/
def setSyncError (error : Option String) (s : DataCacheState) : DataCacheState :=
  { s with syncError := error }

/-- `setLastSyncTime`. -/
def setLastSyncTime (time : Nat) (s : DataCacheState) : DataCacheState :=
  { s with lastSyncTime := some time }

/-- `setCarBrands`. -/
def setCarBrands (data : List DomainRecord) (s : DataCacheState) : DataCacheState :=
  { s with carBrands := data }

/-- `setCarModels`. -/
def setCarModels (data : List DomainRecord) (s : DataCacheState) : DataCacheState :=
  { s with carModels := data }

/-- `setProductBrands`. -/
def setProductBrands (data : List DomainRecord) (s : DataCacheState) : DataCacheState :=
  { s with productBrands := data }

/-- `setCategories`. -/
def setCategories (data : List DomainRecord) (s : DataCacheState) : DataCacheState :=
  { s with categories := data }

/-- `setProducts`. -/
def setProducts (data : List DomainRecord) (s : DataCacheState) : DataCacheState :=
  { s with products := data }

/-- `setSuppliers`. -/
def setSuppliers (data : List DomainRecord) (s : DataCacheState) : DataCacheState :=
  { s with suppliers := data }

/-- `setDistributors`. -/
def setDistributors (data : List DomainRecord) (s : DataCacheState) : DataCacheState :=
  { s with distributors := data }

/-- `setPartners`. -/
def setPartners (data : List DomainRecord) (s : DataCacheState) : DataCacheState :=
  { s with partners := data }

/-- `setAdmins`. -/
def setAdmins (data : List DomainRecord) (s : DataCacheState) : DataCacheState :=
  { s with admins := data }

/-- `setSubscribers`. -/
def setSubscribers (data : List DomainRecord) (s : DataCacheState) : DataCacheState :=
  { s with subscribers := data }

/-- `setCustomers`. -/
def setCustomers (data : List DomainRecord) (s : DataCacheState) : DataCacheState :=
  { s with customers := data }

/-- `setOrders`. -/
def setOrders (data : List DomainRecord) (s : DataCacheState) : DataCacheState :=
  { s with orders := data }

/-- The shape of the object the store's `partialize` option returns: the
fields that reach persistent storage. -/
structure PersistedState where
  lastSyncTime : Option Nat
  offlineActionsQueue : List OfflineAction
  carBrands : List DomainRecord
  carModels : List DomainRecord
  productBrands : List DomainRecord
  categories : List DomainRecord
  products : List DomainRecord
  suppliers : List DomainRecord
  distributors : List DomainRecord
deriving DecidableEq, Repr

/-- `partialize` from the `persist` options: the projection of the state
that is written to storage. -/
def partialize (s : DataCacheState) : PersistedState where
  lastSyncTime := s.lastSyncTime
  offlineActionsQueue := s.offlineActionsQueue
  carBrands := s.carBrands
  carModels := s.carModels
  productBrands := s.productBrands
  categories := s.categories
  products := s.products
  suppliers := s.suppliers
  distributors := s.distributors

/-- The resource types the cache holds, one per collection field. -/
inductive ResourceType
  | carBrands
  | carModels
  | productBrands
  | categories
  | products
  | suppliers
  | distributors
  | partners
  | admins
  | subscribers
  | customers
  | orders
deriving DecidableEq, Repr

/-- The resource-type name as the sync engine reports it. -/
def resourceName : ResourceType → String
  | .carBrands => "carBrands"
  | .carModels => "carModels"
  | .productBrands => "productBrands"
  | .categories => "categories"
  | .products => "products"
  | .suppliers => "suppliers"
  | .distributors => "distributors"
  | .partners => "partners"
  | .admins => "admins"
  | .subscribers => "subscribers"
  | .customers => "customers"
  | .orders => "orders"

/-- Read one resource type's slice of the cache. -/
def getResource : ResourceType → DataCacheState → List DomainRecord
  | .carBrands => DataCacheState.carBrands
  | .carModels => DataCacheState.carModels
  | .productBrands => DataCacheState.productBrands
  | .categories => DataCacheState.categories
  | .products => DataCacheState.products
  | .suppliers => DataCacheState.suppliers
  | .distributors => DataCacheState.distributors
  | .partners => DataCacheState.partners
  | .admins => DataCacheState.admins
  | .subscribers => DataCacheState.subscribers
  | .customers => DataCacheState.customers
  | .orders => DataCacheState.orders

/-- Replace one resource type's slice of the cache through the store's
setter for that type. -/
def setResource : ResourceType → List DomainRecord → DataCacheState → DataCacheState
  | .carBrands => setCarBrands
  | .carModels => setCarModels
  | .productBrands => setProductBrands
  | .categories => setCategories
  | .products => setProducts
  | .suppliers => setSuppliers
  | .distributors => setDistributors
  | .partners => setPartners
  | .admins => setAdmins
  | .subscribers => setSubscribers
  | .customers => setCustomers
  | .orders => setOrders

/-- `SyncResult` as declared in the improvement report: one record per
resource type per sync cycle. -/
structure SyncResult where
  resource : String
  success : Bool
  itemCount : Option Nat
  errorMessage : Option String
  timestamp : Nat
deriving DecidableEq, Repr

/-- Modelled from the spec: the Sync Engine's per-resource sync loop
(`syncService.ts`, not among the source files).  For each configured
resource type independently: fetch remote; on success replace that
resource type's slice of the cache and record a success `SyncResult`;
on failure leave that slice untouched, record a failure `SyncResult`
with the error, and continue to the next resource type. -/
def syncCycle (now : Nat) (fetch : ResourceType → Except String (List DomainRecord)) :
    List ResourceType → DataCacheState → DataCacheState × List SyncResult
  | [], s => (s, [])
  | r :: rest, s =>
    match fetch r with
    | .ok data =>
        let (s', results) := syncCycle now fetch rest (setResource r data s)
        (s', ⟨resourceName r, true, some data.length, none, now⟩ :: results)
    | .error e =>
        let (s', results) := syncCycle now fetch rest s
        (s', ⟨resourceName r, false, none, some e, now⟩ :: results)

/-- The remote executor's verdict on one queued action, as the error
taxonomy distinguishes it: success, connectivity failure, or a
server-rejected failure. -/
inductive ExecResult
  | ok
  | connectivityError (msg : String)
  | serverError (msg : String)
deriving DecidableEq, Repr

/-- Modelled from the spec: the retry bookkeeping the drain loop applies
to a pending action whose execution failed — increment `retryCount`;
if the new count is still below `maxRetries` the action returns to
`pending`, otherwise it is marked `failed`. -/
def retryUpdate (msg : String) (a : OfflineAction) : OfflineAction :=
  if a.retryCount + 1 < a.maxRetries then
    { a with retryCount := a.retryCount + 1, status := .pending,
             errorMessage := some msg }
  else
    { a with retryCount := a.retryCount + 1, status := .failed,
             errorMessage := some msg }

/-- Modelled from the spec: one queue-drain cycle of the Sync Engine
(`syncService.ts`, not among the source files).  The queue is walked
head-first; non-pending actions are excluded from automatic replay.  A
successfully executed action is removed (and collected, in order, as
"applied"); on a server-rejected failure the retry bookkeeping runs and
the drain continues; on a connectivity failure the retry bookkeeping
runs and, if the action is still pending, the drain stops for this
cycle.  Returns (actions applied in order, remaining queue). -/
def drainGo (exec : OfflineAction → ExecResult) :
    List OfflineAction → List OfflineAction × List OfflineAction
  | [] => ([], [])
  | a :: rest =>
    if a.status = .pending then
      match exec a with
      | .ok =>
          let (applied, remaining) := drainGo exec rest
          (a :: applied, remaining)
      | .connectivityError msg =>
          let a' := retryUpdate msg a
          if a'.status = .pending then
            ([], a' :: rest)
          else
            let (applied, remaining) := drainGo exec rest
            (applied, a' :: remaining)
      | .serverError msg =>
          let (applied, remaining) := drainGo exec rest
          (applied, retryUpdate msg a :: remaining)
    else
      let (applied, remaining) := drainGo exec rest
      (applied, a :: remaining)

/-- Modelled from the spec: a queue-drain cycle applied to the store's
state — the remaining queue replaces the old one. -/
def drainQueue (exec : OfflineAction → ExecResult) (s : DataCacheState) :
    DataCacheState :=
  { s with offlineActionsQueue := (drainGo exec s.offlineActionsQueue).2 }

/-- The partial cache copy a snapshot carries, per the improvement
report's `DataSnapshot` interface (each field optional). -/
structure SnapshotData where
  products : Option (List DomainRecord) := none
  categories : Option (List DomainRecord) := none
  orders : Option (List DomainRecord) := none
  carBrands : Option (List DomainRecord) := none
  carModels : Option (List DomainRecord) := none
  productBrands : Option (List DomainRecord) := none
deriving DecidableEq, Repr

/-- `DataSnapshot` as declared in the improvement report. -/
structure DataSnapshot where
  id : String
  timestamp : Nat
  description : String
  data : SnapshotData
deriving DecidableEq, Repr

/-- Modelled from the spec: the Snapshot Manager's `createSnapshot`
(v3.0 of `useDataCacheStore.ts`, not among the source files) prepends
the new checkpoint to the history and keeps only the 5 most recent
snapshots, evicting the oldest beyond that capacity. -/
def createSnapshot (snap : DataSnapshot) (history : List DataSnapshot) :
    List DataSnapshot :=
  (snap :: history).take 5

/-- Modelled from the spec: a whole sequence of `createSnapshot`
operations, oldest call first. -/
def createSnapshots (snaps : List DataSnapshot) (history : List DataSnapshot) :
    List DataSnapshot :=
  snaps.foldl (fun h snap => createSnapshot snap h) history

/-- `ResourceVersion` as declared in the improvement report. -/
structure ResourceVersion where
  resourceId : String
  resourceType : String
  localVersion : Nat
  serverVersion : Option Nat
  lastModified : Nat
  hasConflict : Bool
deriving DecidableEq, Repr

/-- Whether a version entry is keyed by the given resource. -/
def ResourceVersion.matches (v : ResourceVersion) (rid rtype : String) : Bool :=
  v.resourceId = rid ∧ v.resourceType = rtype

/-- Modelled from the spec: the Conflict Tracker's `recordLocalEdit`
(v3.0 of `useDataCacheStore.ts`, not among the source files) —
increments the local version of the resource, creating the
`ResourceVersion` entry (local version 1, no conflict) if absent. -/
def recordLocalEdit (rid rtype : String) (now : Nat)
    (vs : List ResourceVersion) : List ResourceVersion :=
  if vs.any (fun v => v.matches rid rtype) then
    vs.map (fun v =>
      if v.matches rid rtype then
        { v with localVersion := v.localVersion + 1, lastModified := now }
      else v)
  else
    vs ++ [⟨rid, rtype, 1, none, now, false⟩]

/-- Modelled from the spec: the Conflict Tracker's `observeServerVersion`
/ `checkConflict` (v3.0 of `useDataCacheStore.ts`, not among the source
files) — for the still-pending entry of the resource, record the
observed server version; the conflict flag is set exactly when the
observed server version differs from the local version, and cleared
otherwise. -/
def observeServerVersion (rid rtype : String) (sv : Nat)
    (vs : List ResourceVersion) : List ResourceVersion :=
  vs.map (fun v =>
    if v.matches rid rtype then
      if v.localVersion = sv then
        { v with serverVersion := some sv, hasConflict := false }
      else
        { v with serverVersion := some sv, hasConflict := true }
    else v)

/-- Modelled from the spec: the Conflict Tracker's `resolve`
(v3.0 of `useDataCacheStore.ts`, not among the source files).  With
`keepLocal = true` it clears the conflict flag of the resource and
re-queues exactly one `OfflineAction` re-asserting the local state;
otherwise it discards the version tracking for that resource and lets
the next full sync's server payload win. -/
def resolveConflict (rid rtype : String) (keepLocal : Bool)
    (reassert : OfflineAction) (vs : List ResourceVersion)
    (queue : List OfflineAction) : List ResourceVersion × List OfflineAction :=
  if keepLocal then
    (vs.map (fun v =>
        if v.matches rid rtype then { v with hasConflict := false } else v),
     queue ++ [reassert])
  else
    (vs.filter (fun v => ¬ v.matches rid rtype), queue)

/-- Modelled from the spec: the engine-level operations that touch the
offline queue — enqueue, the status transitions, removal, clearing and
a drain cycle.  `markProcessing` and `markFailed` are the status
transitions from the queue contract, realised through the store's
`updateQueueAction`. -/
inductive QueueOp
  | enqueue (now : Nat) (rand : String) (input : NewActionInput)
  | markProcessing (id : String)
  | markFailed (id : String) (error : String)
  | remove (id : String)
  | clear
  | drainCycle (exec : OfflineAction → ExecResult)

/-- Apply one engine-level queue operation to the state. -/
def applyQueueOp : QueueOp → DataCacheState → DataCacheState
  | .enqueue now rand input => addToOfflineQueue now rand input
  | .markProcessing id => updateQueueAction id { status := some .processing }
  | .markFailed id error =>
      updateQueueAction id { status := some .failed, errorMessage := some (some error) }
  | .remove id => removeFromOfflineQueue id
  | .clear => clearOfflineQueue
  | .drainCycle exec => drainQueue exec

/-- Apply a sequence of engine-level queue operations, oldest first. -/
def applyQueueOps (ops : List QueueOp) (s : DataCacheState) : DataCacheState :=
  ops.foldl (fun st op => applyQueueOp op st) s

/-- A sequence of `addToOfflineQueue` calls, oldest first, each with its
clock reading, random suffix and input. -/
def enqueueAll (inputs : List (Nat × String × NewActionInput))
    (s : DataCacheState) : DataCacheState :=
  inputs.foldl (fun st p => addToOfflineQueue p.1 p.2.1 p.2.2 st) s

/-- The retry-bound invariant of the queue: while an action is pending
its retry count has not exceeded its maximum retries. -/
def PendingInvariant (q : List OfflineAction) : Prop :=
  ∀ a ∈ q, a.status = .pending → a.retryCount ≤ a.maxRetries

instance (q : List OfflineAction) : Decidable (PendingInvariant q) :=
  List.decidableBAll _ q

/-- A concrete enqueue input used to evaluate the theorems. -/
def sampleInput : NewActionInput where
  type := .cart_add
  endpoint := "/api/cart"
  method := .post
  payload := some "item-1"
  maxRetries := 3
  errorMessage := none

/-- A concrete fetch outcome used to evaluate the sync theorems:
products fail with a server error, every other resource returns one
record. -/
def sampleFetch : ResourceType → Except String (List DomainRecord)
  | .products => .error "server 500"
  | _ => .ok ["record-1"]

/-- A concrete snapshot used to evaluate the snapshot theorems. -/
def sampleSnapshot (n : Nat) : DataSnapshot where
  id := toString n
  timestamp := n
  description := "checkpoint"
  data := {}

/-- A concrete failed action used to evaluate the queue theorems. -/
def sampleFailedAction : OfflineAction :=
  { mkQueuedAction 1 "rnd" sampleInput with status := .failed }

/-- A concrete version-ledger entry used to evaluate the conflict
theorems. -/
def sampleVersion : ResourceVersion where
  resourceId := "res-1"
  resourceType := "products"
  localVersion := 2
  serverVersion := none
  lastModified := 10
  hasConflict := false

/-! ## Helper lemmas -/

theorem listMapCongr {α β : Type} {f g : α → β} :
    ∀ {l : List α}, (∀ a ∈ l, f a = g a) → l.map f = l.map g := by
  intro l
  induction l with
  | nil => intro _; rfl
  | cons a rest ih =>
      intro h
      simp only [List.map_cons]
      rw [h a (List.mem_cons_self a rest), ih (fun b hb => h b (List.mem_cons_of_mem a hb))]

theorem listMapId {α : Type} {f : α → α} {l : List α}
    (h : ∀ a ∈ l, f a = a) : l.map f = l := by
  rw [listMapCongr (g := id) h, List.map_id]

theorem enqueueAll_queue (inputs : List (Nat × String × NewActionInput))
    (s : DataCacheState) :
    (enqueueAll inputs s).offlineActionsQueue
      = s.offlineActionsQueue
          ++ inputs.map (fun p => mkQueuedAction p.1 p.2.1 p.2.2) := by
  induction inputs generalizing s with
  | nil => simp [enqueueAll]
  | cons p rest ih =>
      have hstep : enqueueAll (p :: rest) s
          = enqueueAll rest (addToOfflineQueue p.1 p.2.1 p.2.2 s) := rfl
      rw [hstep, ih]
      simp [addToOfflineQueue]

theorem drainGo_applied_sublist (exec : OfflineAction → ExecResult) :
    ∀ q : List OfflineAction, ((drainGo exec q).1).Sublist q := by
  intro q
  induction q with
  | nil => simp [drainGo]
  | cons a rest ih =>
      by_cases hp : a.status = .pending
      · cases hexec : exec a with
        | ok => simpa [drainGo, hp, hexec] using ih.cons₂ a
        | connectivityError msg =>
            by_cases hs : (retryUpdate msg a).status = .pending
            · simp [drainGo, hp, hexec, hs]
            · simpa [drainGo, hp, hexec, hs] using ih.cons a
        | serverError msg => simpa [drainGo, hp, hexec] using ih.cons a
      · simpa [drainGo, hp] using ih.cons a

/-! ## Claim theorems -/

/-- C1: for every sequence of enqueue operations, `addToOfflineQueue`
appends each new action at the tail, so the queue lists the actions in
strict creation order; and a head-first drain applies a subsequence of
the queue — actions are replayed in exactly their creation order
relative to each other, never reordered. -/
theorem C1_fifo_order (inputs : List (Nat × String × NewActionInput))
    (exec : OfflineAction → ExecResult) (s : DataCacheState) :
    (enqueueAll inputs s).offlineActionsQueue
      = s.offlineActionsQueue
          ++ inputs.map (fun p => mkQueuedAction p.1 p.2.1 p.2.2)
  ∧ ((drainGo exec (enqueueAll inputs s).offlineActionsQueue).1).Sublist
      (enqueueAll inputs s).offlineActionsQueue :=
  ⟨enqueueAll_queue inputs s,
   drainGo_applied_sublist exec (enqueueAll inputs s).offlineActionsQueue⟩

/-- C4: `addToOfflineQueue` leaves the old queue intact and appends
exactly one new action at the tail, and that action carries status
pending, retry count 0, the freshly generated id and the creation
timestamp. -/
theorem C4_enqueue_postcondition (now : Nat) (rand : String)
    (inp : NewActionInput) (s : DataCacheState) :
    (addToOfflineQueue now rand inp s).offlineActionsQueue
      = s.offlineActionsQueue ++ [mkQueuedAction now rand inp]
  ∧ (mkQueuedAction now rand inp).status = .pending
  ∧ (mkQueuedAction now rand inp).retryCount = 0
  ∧ (mkQueuedAction now rand inp).id = generateActionId now rand
  ∧ (mkQueuedAction now rand inp).timestamp = now :=
  ⟨rfl, rfl, rfl, rfl, rfl⟩

/-- C9 counterexample: mutating the orders cache through `setOrders`
leaves the persisted projection (`partialize`) unchanged — the
persisted projection has no orders slice at all, so the claim that
every mutated resource type (including orders) reaches persistence is
false on the code. -/
theorem C9_counterexample :
    (setOrders ["order-1"] initialState).orders = ["order-1"]
  ∧ partialize (setOrders ["order-1"] initialState) = partialize initialState :=
  ⟨rfl, rfl⟩

/-- C9 amended: the persisted projection reflects every mutation of the
persisted resource types (car brands, car models, product brands,
categories, products, suppliers, distributors), while mutations of
orders, customers, partners, admins and subscribers never change the
persisted projection — those five types are excluded from
`partialize`. -/
theorem C9_amended_persistence (s : DataCacheState) (data : List DomainRecord) :
    (partialize (setCarBrands data s)).carBrands = data
  ∧ (partialize (setCarModels data s)).carModels = data
  ∧ (partialize (setProductBrands data s)).productBrands = data
  ∧ (partialize (setCategories data s)).categories = data
  ∧ (partialize (setProducts data s)).products = data
  ∧ (partialize (setSuppliers data s)).suppliers = data
  ∧ (partialize (setDistributors data s)).distributors = data
  ∧ partialize (setOrders data s) = partialize s
  ∧ partialize (setCustomers data s) = partialize s
  ∧ partialize (setPartners data s) = partialize s
  ∧ partialize (setAdmins data s) = partialize s
  ∧ partialize (setSubscribers data s) = partialize s :=
  ⟨rfl, rfl, rfl, rfl, rfl, rfl, rfl, rfl, rfl, rfl, rfl, rfl⟩

/-- C10: `updateQueueAction` preserves the queue's length and leaves
every action whose id differs from the target unchanged at its
position (so the relative order never changes); and when no action in
the queue carries the target id, both `updateQueueAction` and
`removeFromOfflineQueue` return the state entirely unchanged rather
than failing. -/
theorem C10_update_remove_frame (s : DataCacheState) (aid : String)
    (u : ActionUpdates) :
    (updateQueueAction aid u s).offlineActionsQueue.length
      = s.offlineActionsQueue.length
  ∧ (∀ i a, s.offlineActionsQueue.get? i = some a → a.id ≠ aid →
      (updateQueueAction aid u s).offlineActionsQueue.get? i = some a)
  ∧ ((∀ a ∈ s.offlineActionsQueue, a.id ≠ aid) →
      updateQueueAction aid u s = s ∧ removeFromOfflineQueue aid s = s) := by
  refine ⟨by simp [updateQueueAction], ?_, ?_⟩
  · intro i a h hne
    simp only [List.get?_eq_getElem?] at h
    simp [updateQueueAction, List.getElem?_map, h, hne]
  · intro h
    constructor
    · show { s with offlineActionsQueue :=
          s.offlineActionsQueue.map (fun a =>
            if a.id = aid then applyUpdates a u else a) } = s
      rw [listMapId (fun a ha => if_neg (h a ha))]
    · show { s with offlineActionsQueue :=
          s.offlineActionsQueue.filter (fun a => a.id ≠ aid) } = s
      rw [List.filter_eq_self.mpr (fun a ha => by simpa using h a ha)]

/-- C10 witness: on a queue holding one enqueued action, updating or
removing an id that is absent leaves the state unchanged. -/
theorem C10_witness :
    updateQueueAction "zzz" {} (addToOfflineQueue 1 "rnd" sampleInput initialState)
      = addToOfflineQueue 1 "rnd" sampleInput initialState
  ∧ removeFromOfflineQueue "zzz" (addToOfflineQueue 1 "rnd" sampleInput initialState)
      = addToOfflineQueue 1 "rnd" sampleInput initialState :=
  (C10_update_remove_frame (addToOfflineQueue 1 "rnd" sampleInput initialState)
    "zzz" {}).2.2 (by decide)

/-- C5 counterexample: `clearOfflineQueue` is a queue operation other
than `remove`, yet it removes an action that was present — the claim
that actions permanently leave the queue only through `remove` is
false on the code. -/
theorem C5_counterexample :
    mkQueuedAction 1 "rnd" sampleInput
      ∈ (addToOfflineQueue 1 "rnd" sampleInput initialState).offlineActionsQueue
  ∧ mkQueuedAction 1 "rnd" sampleInput
      ∉ (clearOfflineQueue
          (addToOfflineQueue 1 "rnd" sampleInput initialState)).offlineActionsQueue := by
  constructor
  · simp [addToOfflineQueue, initialState]
  · simp [clearOfflineQueue]

/-- C5 amended: `removeFromOfflineQueue` and `clearOfflineQueue` are the
only store operations through which an action leaves the queue:
`addToOfflineQueue` preserves every present action, `updateQueueAction`
preserves the number of actions and every action whose id differs from
the target, and every sync-state setter and every one of the twelve
data setters leaves the queue itself untouched. -/
theorem C5_amended_membership (s : DataCacheState) (a : OfflineAction)
    (ha : a ∈ s.offlineActionsQueue) :
    (∀ now rand inp, a ∈ (addToOfflineQueue now rand inp s).offlineActionsQueue)
  ∧ (∀ aid u, (updateQueueAction aid u s).offlineActionsQueue.length
      = s.offlineActionsQueue.length)
  ∧ (∀ aid u, a.id ≠ aid → a ∈ (updateQueueAction aid u s).offlineActionsQueue)
  ∧ (∀ b, (setOnline b s).offlineActionsQueue = s.offlineActionsQueue)
  ∧ (∀ st, (setSyncStatus st s).offlineActionsQueue = s.offlineActionsQueue)
  ∧ (∀ e, (setSyncError e s).offlineActionsQueue = s.offlineActionsQueue)
  ∧ (∀ t, (setLastSyncTime t s).offlineActionsQueue = s.offlineActionsQueue)
  ∧ (∀ b, (setProcessingQueue b s).offlineActionsQueue = s.offlineActionsQueue)
  ∧ (∀ data, (setCarBrands data s).offlineActionsQueue = s.offlineActionsQueue)
  ∧ (∀ data, (setCarModels data s).offlineActionsQueue = s.offlineActionsQueue)
  ∧ (∀ data, (setProductBrands data s).offlineActionsQueue = s.offlineActionsQueue)
  ∧ (∀ data, (setCategories data s).offlineActionsQueue = s.offlineActionsQueue)
  ∧ (∀ data, (setProducts data s).offlineActionsQueue = s.offlineActionsQueue)
  ∧ (∀ data, (setSuppliers data s).offlineActionsQueue = s.offlineActionsQueue)
  ∧ (∀ data, (setDistributors data s).offlineActionsQueue = s.offlineActionsQueue)
  ∧ (∀ data, (setPartners data s).offlineActionsQueue = s.offlineActionsQueue)
  ∧ (∀ data, (setAdmins data s).offlineActionsQueue = s.offlineActionsQueue)
  ∧ (∀ data, (setSubscribers data s).offlineActionsQueue = s.offlineActionsQueue)
  ∧ (∀ data, (setCustomers data s).offlineActionsQueue = s.offlineActionsQueue)
  ∧ (∀ data, (setOrders data s).offlineActionsQueue = s.offlineActionsQueue) := by
  refine ⟨?_, ?_, ?_, fun _ => rfl, fun _ => rfl, fun _ => rfl, fun _ => rfl,
    fun _ => rfl, fun _ => rfl, fun _ => rfl, fun _ => rfl, fun _ => rfl,
    fun _ => rfl, fun _ => rfl, fun _ => rfl, fun _ => rfl, fun _ => rfl,
    fun _ => rfl, fun _ => rfl, fun _ => rfl⟩
  · intro now rand inp
    exact List.mem_append.mpr (Or.inl ha)
  · intro aid u
    simp [updateQueueAction]
  · intro aid u hne
    exact List.mem_map.mpr ⟨a, ha, by simp [hne]⟩

/-- C5 witness: on a concretely enqueued queue, a data setter leaves
the queue untouched and a further enqueue keeps the present action. -/
theorem C5_witness :
    (setCarBrands ["brand-1"]
        (addToOfflineQueue 1 "rnd" sampleInput initialState)).offlineActionsQueue
      = (addToOfflineQueue 1 "rnd" sampleInput initialState).offlineActionsQueue
  ∧ mkQueuedAction 1 "rnd" sampleInput
      ∈ (addToOfflineQueue 2 "r2" sampleInput
          (addToOfflineQueue 1 "rnd" sampleInput initialState)).offlineActionsQueue :=
  ⟨(C5_amended_membership (addToOfflineQueue 1 "rnd" sampleInput initialState)
      (mkQueuedAction 1 "rnd" sampleInput) (by decide)).2.2.2.2.2.2.2.2.1
      ["brand-1"],
   (C5_amended_membership (addToOfflineQueue 1 "rnd" sampleInput initialState)
      (mkQueuedAction 1 "rnd" sampleInput) (by decide)).1 2 "r2" sampleInput⟩

theorem getResource_setResource_self (r : ResourceType)
    (data : List DomainRecord) (s : DataCacheState) :
    getResource r (setResource r data s) = data := by
  cases r <;> rfl

theorem getResource_setResource_ne {r r' : ResourceType} (h : r' ≠ r)
    (data : List DomainRecord) (s : DataCacheState) :
    getResource r' (setResource r data s) = getResource r' s := by
  cases r <;> cases r' <;> first | rfl | exact absurd rfl h

theorem syncCycle_results_length (now : Nat)
    (fetch : ResourceType → Except String (List DomainRecord)) :
    ∀ (rs : List ResourceType) (s : DataCacheState),
      ((syncCycle now fetch rs s).2).length = rs.length := by
  intro rs
  induction rs with
  | nil => intro s; rfl
  | cons r rest ih =>
      intro s
      cases hf : fetch r <;> simp [syncCycle, hf, ih]

/-- C2: in a sync cycle over resource types A and B where A's fetch
fails and B's succeeds, only B's slice of the cache is replaced (B
reflects the new fetch, A's cached data is unchanged), the cycle's
`SyncResult` list contains exactly the failure for A and the success
for B, and — the partial-sync guarantee — every resource type of any
cycle gets its own result, so one failure never aborts the others. -/
theorem C2_partial_sync (now : Nat)
    (fetch : ResourceType → Except String (List DomainRecord))
    (A B : ResourceType) (s : DataCacheState) (eA : String)
    (dB : List DomainRecord) (hAB : A ≠ B)
    (hA : fetch A = .error eA) (hB : fetch B = .ok dB) :
    getResource B (syncCycle now fetch [A, B] s).1 = dB
  ∧ getResource A (syncCycle now fetch [A, B] s).1 = getResource A s
  ∧ (syncCycle now fetch [A, B] s).2
      = [⟨resourceName A, false, none, some eA, now⟩,
         ⟨resourceName B, true, some dB.length, none, now⟩]
  ∧ (∀ rs : List ResourceType,
      ((syncCycle now fetch rs s).2).length = rs.length) := by
  have hstep : syncCycle now fetch [A, B] s
      = (setResource B dB s,
         [⟨resourceName A, false, none, some eA, now⟩,
          ⟨resourceName B, true, some dB.length, none, now⟩]) := by
    simp [syncCycle, hA, hB]
  refine ⟨?_, ?_, ?_, fun rs => syncCycle_results_length now fetch rs s⟩
  · rw [hstep]; exact getResource_setResource_self B dB s
  · rw [hstep]; exact getResource_setResource_ne hAB dB s
  · rw [hstep]

/-- C2 witness: with products failing and orders succeeding, orders are
replaced and products untouched. -/
theorem C2_witness :
    getResource .orders
        (syncCycle 7 sampleFetch [.products, .orders] initialState).1
      = ["record-1"]
  ∧ getResource .products
        (syncCycle 7 sampleFetch [.products, .orders] initialState).1
      = [] := by
  have h := C2_partial_sync 7 sampleFetch .products .orders initialState
    "server 500" ["record-1"] (by decide) rfl rfl
  exact ⟨h.1, h.2.1.trans rfl⟩

theorem retryUpdate_le (msg : String) (a : OfflineAction) :
    (retryUpdate msg a).status = .pending →
      (retryUpdate msg a).retryCount ≤ (retryUpdate msg a).maxRetries := by
  unfold retryUpdate
  by_cases h : a.retryCount + 1 < a.maxRetries
  · simp only [if_pos h]
    exact fun _ => Nat.le_of_lt h
  · simp [if_neg h]

theorem retryUpdate_failed_iff (msg : String) (a : OfflineAction) :
    (retryUpdate msg a).status = .failed ↔ a.maxRetries ≤ a.retryCount + 1 := by
  unfold retryUpdate
  by_cases h : a.retryCount + 1 < a.maxRetries
  · simp [h]
  · simp [h]; omega

theorem pendingInv_drainGo (exec : OfflineAction → ExecResult) :
    ∀ q, PendingInvariant q → PendingInvariant (drainGo exec q).2 := by
  intro q
  induction q with
  | nil => intro _; simp [drainGo, PendingInvariant]
  | cons a rest ih =>
      intro hinv
      have hrest : PendingInvariant rest :=
        fun b hb => hinv b (List.mem_cons_of_mem a hb)
      by_cases hp : a.status = .pending
      · cases hexec : exec a with
        | ok => simpa [drainGo, hp, hexec] using ih hrest
        | connectivityError msg =>
            by_cases hs : (retryUpdate msg a).status = .pending
            · intro b hb
              simp [drainGo, hp, hexec, hs] at hb
              rcases hb with hb | hb
              · subst hb; intro _; exact retryUpdate_le msg a hs
              · exact hrest b hb
            · intro b hb
              simp [drainGo, hp, hexec, hs] at hb
              rcases hb with hb | hb
              · subst hb; intro hbp; exact absurd hbp hs
              · exact ih hrest b hb
        | serverError msg =>
            intro b hb
            simp [drainGo, hp, hexec] at hb
            rcases hb with hb | hb
            · subst hb; exact retryUpdate_le msg a
            · exact ih hrest b hb
      · intro b hb
        simp [drainGo, hp] at hb
        rcases hb with hb | hb
        · subst hb; intro hbp; exact absurd hbp hp
        · exact ih hrest b hb

theorem pendingInv_applyQueueOp (op : QueueOp) (s : DataCacheState)
    (h : PendingInvariant s.offlineActionsQueue) :
    PendingInvariant (applyQueueOp op s).offlineActionsQueue := by
  cases op with
  | enqueue now rand input =>
      intro b hb
      rcases List.mem_append.mp hb with hb | hb
      · exact h b hb
      · rw [List.mem_singleton.mp hb]
        intro _
        exact Nat.zero_le _
  | markProcessing id =>
      intro b hb
      simp only [applyQueueOp, updateQueueAction] at hb
      rcases List.mem_map.mp hb with ⟨a, ha, rfl⟩
      by_cases hid : a.id = id
      · simp [hid, applyUpdates]
      · simpa [hid] using h a ha
  | markFailed id err =>
      intro b hb
      simp only [applyQueueOp, updateQueueAction] at hb
      rcases List.mem_map.mp hb with ⟨a, ha, rfl⟩
      by_cases hid : a.id = id
      · simp [hid, applyUpdates]
      · simpa [hid] using h a ha
  | remove id =>
      intro b hb
      exact h b (List.mem_of_mem_filter hb)
  | clear =>
      intro b hb
      simp [applyQueueOp, clearOfflineQueue] at hb
  | drainCycle exec =>
      exact pendingInv_drainGo exec _ h

theorem pendingInv_applyQueueOps :
    ∀ (ops : List QueueOp) (s : DataCacheState),
      PendingInvariant s.offlineActionsQueue →
      PendingInvariant (applyQueueOps ops s).offlineActionsQueue := by
  intro ops
  induction ops with
  | nil => intro s h; exact h
  | cons op rest ih =>
      intro s h
      exact ih (applyQueueOp op s) (pendingInv_applyQueueOp op s h)

theorem failed_mem_drainGo (exec : OfflineAction → ExecResult) :
    ∀ (q : List OfflineAction) (a : OfflineAction),
      a ∈ q → a.status = .failed → a ∈ (drainGo exec q).2 := by
  intro q
  induction q with
  | nil => intro a ha _; simp at ha
  | cons b rest ih =>
      intro a ha haf
      rcases List.mem_cons.mp ha with rfl | ha
      · have hp : ¬ a.status = .pending := by simp [haf]
        simp [drainGo, hp]
      · by_cases hp : b.status = .pending
        · cases hexec : exec b with
          | ok => simpa [drainGo, hp, hexec] using ih a ha haf
          | connectivityError msg =>
              by_cases hs : (retryUpdate msg b).status = .pending
              · simp [drainGo, hp, hexec, hs]
                exact Or.inr ha
              · simp [drainGo, hp, hexec, hs]
                exact Or.inr (ih a ha haf)
          | serverError msg =>
              simp [drainGo, hp, hexec]
              exact Or.inr (ih a ha haf)
        · simp [drainGo, hp]
          exact Or.inr (ih a ha haf)

/-- C3: under the engine's queue operations (enqueue, the status
transitions, removal, clearing, drain cycles) a pending action's retry
count never exceeds its maximum retries; the drain's retry bookkeeping
marks an action failed exactly when the incremented count reaches the
bound; and a failed action survives drain cycles and enqueues
untouched — it leaves only by explicit removal. -/
theorem C3_retry_bound :
    (∀ ops : List QueueOp,
      PendingInvariant (applyQueueOps ops initialState).offlineActionsQueue)
  ∧ (∀ (msg : String) (a : OfflineAction),
      (retryUpdate msg a).status = .failed ↔ a.maxRetries ≤ a.retryCount + 1)
  ∧ (∀ (exec : OfflineAction → ExecResult) (s : DataCacheState),
      ∀ a ∈ s.offlineActionsQueue, a.status = .failed →
        a ∈ (drainQueue exec s).offlineActionsQueue)
  ∧ (∀ (now : Nat) (rand : String) (inp : NewActionInput) (s : DataCacheState),
      ∀ a ∈ s.offlineActionsQueue,
        a ∈ (addToOfflineQueue now rand inp s).offlineActionsQueue) := by
  refine ⟨?_, retryUpdate_failed_iff, ?_, ?_⟩
  · intro ops
    exact pendingInv_applyQueueOps ops initialState
      (by intro a ha; simp [initialState] at ha)
  · intro exec s a ha haf
    exact failed_mem_drainGo exec s.offlineActionsQueue a ha haf
  · intro now rand inp s a ha
    exact List.mem_append.mpr (Or.inl ha)

/-- C3 witness: the invariant evaluated after a concrete enqueue, the
failure transition evaluated at the bound, and a concrete failed
action surviving a drain cycle. -/
theorem C3_witness :
    PendingInvariant
      (applyQueueOps [QueueOp.enqueue 1 "rnd" sampleInput]
        initialState).offlineActionsQueue
  ∧ ((retryUpdate "err" (mkQueuedAction 1 "rnd" sampleInput)).status = .failed
      ↔ (mkQueuedAction 1 "rnd" sampleInput).maxRetries
          ≤ (mkQueuedAction 1 "rnd" sampleInput).retryCount + 1)
  ∧ sampleFailedAction
      ∈ (drainQueue (fun _ => .ok)
          { initialState with
              offlineActionsQueue := [sampleFailedAction] }).offlineActionsQueue :=
  ⟨C3_retry_bound.1 [QueueOp.enqueue 1 "rnd" sampleInput],
   C3_retry_bound.2.1 "err" (mkQueuedAction 1 "rnd" sampleInput),
   C3_retry_bound.2.2.1 (fun _ => .ok)
     { initialState with offlineActionsQueue := [sampleFailedAction] }
     sampleFailedAction (by decide) (by decide)⟩

theorem createSnapshot_length_le (snap : DataSnapshot)
    (history : List DataSnapshot) :
    (createSnapshot snap history).length ≤ 5 :=
  List.length_take_le 5 (snap :: history)

/-- C6: the snapshot history never holds more than 5 entries — any
sequence of `createSnapshot` operations starting from an empty (or any
within-bound) history stays within the bound — and creating a snapshot
when 5 are retained keeps the new one plus all but the oldest (the
history is newest-first, so exactly the last entry is evicted). -/
theorem C6_snapshot_bound :
    (∀ snaps : List DataSnapshot, (createSnapshots snaps []).length ≤ 5)
  ∧ (∀ history : List DataSnapshot, history.length ≤ 5 →
      ∀ snap, (createSnapshot snap history).length ≤ 5)
  ∧ (∀ (history : List DataSnapshot) (snap : DataSnapshot),
      history.length = 5 →
      createSnapshot snap history = snap :: history.dropLast) := by
  refine ⟨?_, fun history _ snap => createSnapshot_length_le snap history, ?_⟩
  · have general : ∀ (snaps : List DataSnapshot) (h : List DataSnapshot),
        h.length ≤ 5 → (createSnapshots snaps h).length ≤ 5 := by
      intro snaps
      induction snaps with
      | nil => intro h hh; exact hh
      | cons snap rest ih =>
          intro h _
          exact ih (createSnapshot snap h) (createSnapshot_length_le snap h)
    intro snaps
    exact general snaps [] (by simp)
  · intro history snap h5
    show (snap :: history).take 5 = snap :: history.dropLast
    rw [List.dropLast_eq_take, h5, List.take_succ_cons]

/-- C6 witness: with 5 snapshots retained, a 6th evicts exactly the
oldest. -/
theorem C6_witness :
    [sampleSnapshot 5, sampleSnapshot 4, sampleSnapshot 3,
     sampleSnapshot 2, sampleSnapshot 1].length = 5
  ∧ createSnapshot (sampleSnapshot 6)
      [sampleSnapshot 5, sampleSnapshot 4, sampleSnapshot 3,
       sampleSnapshot 2, sampleSnapshot 1]
    = sampleSnapshot 6 ::
        [sampleSnapshot 5, sampleSnapshot 4, sampleSnapshot 3,
         sampleSnapshot 2, sampleSnapshot 1].dropLast :=
  ⟨by simp,
   C6_snapshot_bound.2.2
     [sampleSnapshot 5, sampleSnapshot 4, sampleSnapshot 3,
      sampleSnapshot 2, sampleSnapshot 1]
     (sampleSnapshot 6) (by simp)⟩

/-- C7: observing a server version sets the conflict flag of the
matching (still-tracked, hence still-pending) entry exactly when the
server version differs from the local version — and records the server
version either way; entries of other resources are untouched; resolving
with keepLocal adds exactly one re-asserting action to the queue and
clears the matching conflict flags; and `recordLocalEdit` never raises
a conflict flag. -/
theorem C7_conflict_versioning (rid rtype : String) (sv : Nat)
    (vs : List ResourceVersion) :
    (∀ i v, vs.get? i = some v → v.matches rid rtype = true →
      ∃ w, (observeServerVersion rid rtype sv vs).get? i = some w
        ∧ (w.hasConflict = true ↔ v.localVersion ≠ sv)
        ∧ w.serverVersion = some sv
        ∧ w.localVersion = v.localVersion)
  ∧ (∀ i v, vs.get? i = some v → v.matches rid rtype = false →
      (observeServerVersion rid rtype sv vs).get? i = some v)
  ∧ (∀ (keepLocal : Bool) (reassert : OfflineAction)
        (queue : List OfflineAction),
      (resolveConflict rid rtype keepLocal reassert vs queue).2
        = if keepLocal then queue ++ [reassert] else queue)
  ∧ (∀ (reassert : OfflineAction) (queue : List OfflineAction),
      ∀ w ∈ (resolveConflict rid rtype true reassert vs queue).1,
        w.matches rid rtype = true → w.hasConflict = false)
  ∧ (∀ now : Nat, ∀ w ∈ recordLocalEdit rid rtype now vs,
      w.hasConflict = true → ∃ v ∈ vs, v.hasConflict = true) := by
  refine ⟨?_, ?_, ?_, ?_, ?_⟩
  · intro i v hv hm
    simp only [List.get?_eq_getElem?] at hv ⊢
    by_cases heq : v.localVersion = sv
    · refine ⟨{ v with serverVersion := some sv, hasConflict := false }, ?_, by simp [heq], rfl, rfl⟩
      simp [observeServerVersion, List.getElem?_map, hv, hm, heq]
    · refine ⟨{ v with serverVersion := some sv, hasConflict := true }, ?_, by simp [heq], rfl, rfl⟩
      simp [observeServerVersion, List.getElem?_map, hv, hm, heq]
  · intro i v hv hm
    simp only [List.get?_eq_getElem?] at hv ⊢
    simp [observeServerVersion, List.getElem?_map, hv, hm]
  · intro keepLocal reassert queue
    cases keepLocal <;> simp [resolveConflict]
  · intro reassert queue w hw hm
    simp only [resolveConflict, if_pos] at hw
    rcases List.mem_map.mp hw with ⟨v, _, rfl⟩
    by_cases hv : v.matches rid rtype = true
    · simp [hv]
    · rw [if_neg (by simpa using hv)] at hm ⊢
      exact absurd hm hv
  · intro now w hw hcf
    by_cases hany : vs.any (fun v => v.matches rid rtype)
    · simp only [recordLocalEdit, if_pos hany] at hw
      rcases List.mem_map.mp hw with ⟨v, hv, rfl⟩
      by_cases hm : v.matches rid rtype = true
      · refine ⟨v, hv, ?_⟩
        simpa [hm] using hcf
      · refine ⟨v, hv, ?_⟩
        rw [if_neg (by simpa using hm)] at hcf
        exact hcf
    · simp only [recordLocalEdit, if_neg hany] at hw
      rcases List.mem_append.mp hw with hw | hw
      · exact ⟨w, hw, hcf⟩
      · rw [List.mem_singleton.mp hw] at hcf
        simp at hcf

/-- C7 witness: observing server version 3 against local version 2
raises the conflict flag and records the server version; resolving
with keepLocal enqueues exactly the one re-asserting action. -/
theorem C7_witness :
    (∃ w, (observeServerVersion "res-1" "products" 3 [sampleVersion]).get? 0
        = some w
      ∧ (w.hasConflict = true ↔ sampleVersion.localVersion ≠ 3)
      ∧ w.serverVersion = some 3
      ∧ w.localVersion = sampleVersion.localVersion)
  ∧ (resolveConflict "res-1" "products" true
        (mkQueuedAction 2 "rr" sampleInput) [sampleVersion] []).2
      = [mkQueuedAction 2 "rr" sampleInput] := by
  refine ⟨(C7_conflict_versioning "res-1" "products" 3 [sampleVersion]).1 0
    sampleVersion rfl (by decide), ?_⟩
  have h := (C7_conflict_versioning "res-1" "products" 3 [sampleVersion]).2.2.1
    true (mkQueuedAction 2 "rr" sampleInput) []
  simpa using h

/-- C8 counterexample: `updateQueueAction` spreads arbitrary `Partial`
updates over the matching action, so a queue operation can change an
action's id after creation — the enqueued action's generated id
"action_1_rnd" becomes "hijacked". -/
theorem C8_counterexample :
    (addToOfflineQueue 1 "rnd" sampleInput initialState).offlineActionsQueue.map
        (fun a => a.id)
      = ["action_1_rnd"]
  ∧ (updateQueueAction "action_1_rnd" { id := some "hijacked" }
        (addToOfflineQueue 1 "rnd" sampleInput initialState)).offlineActionsQueue.map
        (fun a => a.id)
      = ["hijacked"] := by
  constructor
  · decide
  · decide

/-- C8 amended: two enqueued actions receive distinct ids whenever
their random suffixes are distinct strings of equal length (the id
embeds the clock reading and the random suffix); and an action's id is
preserved by every queue operation except an `updateQueueAction` whose
updates explicitly carry an id — in particular `updateQueueAction`
without an id field and `addToOfflineQueue` never change an existing
id. -/
theorem C8_amended_id_unique_immutable :
    (∀ (t1 t2 : Nat) (r1 r2 : String), r1.length = r2.length → r1 ≠ r2 →
      generateActionId t1 r1 ≠ generateActionId t2 r2)
  ∧ (∀ (s : DataCacheState) (aid : String) (u : ActionUpdates), u.id = none →
      (updateQueueAction aid u s).offlineActionsQueue.map (fun a => a.id)
        = s.offlineActionsQueue.map (fun a => a.id))
  ∧ (∀ (s : DataCacheState) (now : Nat) (rand : String) (inp : NewActionInput),
      (addToOfflineQueue now rand inp s).offlineActionsQueue.map (fun a => a.id)
        = s.offlineActionsQueue.map (fun a => a.id)
            ++ [generateActionId now rand]) := by
  refine ⟨?_, ?_, ?_⟩
  · intro t1 t2 r1 r2 hlen hne heq
    apply hne
    have hd := congrArg String.data heq
    simp only [generateActionId, String.data_append] at hd
    exact String.ext (List.append_inj' hd hlen).2
  · intro s aid u hu
    show (s.offlineActionsQueue.map fun a =>
        if a.id = aid then applyUpdates a u else a).map (fun a => a.id)
      = s.offlineActionsQueue.map (fun a => a.id)
    rw [List.map_map]
    apply listMapCongr
    intro a _
    by_cases h : a.id = aid
    · simp [Function.comp, h, applyUpdates, hu]
    · simp [Function.comp, h]
  · intro s now rand inp
    simp [addToOfflineQueue, mkQueuedAction]

/-- C8 witness: equal-length distinct random suffixes yield distinct
ids at concrete inputs. -/
theorem C8_witness :
    generateActionId 1 "abc" ≠ generateActionId 1 "abd" :=
  C8_amended_id_unique_immutable.1 1 1 "abc" "abd" rfl (by decide)

end DataCache
